import Mathlib

/-!
Shallow embedding of the strategy-dispatch core of
`lib/sqlalchemy/orm/interfaces.py`: Python dicts become association lists,
the global strategy registry becomes an explicit `Registry` value threaded
through the functions, and the mutable per-property state
(`_configure_started`, `_configure_finished`, `_strategies`, `strategy`)
becomes an explicit `PropState` record passed and returned by each
operation.  Exceptions become `Except`.
-/

namespace OrmInterfaces

/-- Python dict key lookup `d[k]` / `k in d` on an association list whose
keys are unique: return the first entry whose key matches. -/
def alookup {κ α : Type} [DecidableEq κ] : List (κ × α) → κ → Option α
  | [], _ => none
  | (k0, v0) :: d, k => if k = k0 then some v0 else alookup d k

/-- Python dict assignment `d[k] = v`: overwrite in place when the key is
present, otherwise append at the end (dict insertion order). -/
def dictInsert {κ α : Type} [DecidableEq κ] : List (κ × α) → κ → α → List (κ × α)
  | [], k, v => [(k, v)]
  | (k0, v0) :: d, k, v =>
    if k = k0 then (k, v) :: d else (k0, v0) :: dictInsert d k v

/-- Python `dict(pairs)`: left-to-right insertion, later duplicates win. -/
def dictOfPairs {κ α : Type} [DecidableEq κ] (l : List (κ × α)) : List (κ × α) :=
  l.foldl (fun d kv => dictInsert d kv.1 kv.2) []

/-- One `(option-name, option-value)` pair of a strategy key. -/
abbrev OptionPair := String × String

/-- A strategy key: `tuple(sorted(kw.items()))` in the source; here the
list of pairs, normalised through `sortPairs` at registration time. -/
abbrev StrategyKey := List OptionPair

/-- Identifier of a `MapperProperty` subclass (an entry of `__mro__`). -/
abbrev ClassId := String

/-- Identifier of a concrete `LoaderStrategy` subclass. -/
abbrev StrategyClsId := String

/-- Python's `<=` on 2-tuples of strings: lexicographic. `sorted` orders
pairs by this relation. -/
def pairR (a b : OptionPair) : Prop :=
  a.1 < b.1 ∨ (a.1 = b.1 ∧ a.2 ≤ b.2)

instance : DecidableRel pairR := fun a b => by
  unfold pairR; infer_instance

theorem pairR_total : ∀ a b : OptionPair, pairR a b ∨ pairR b a := by
  intro a b
  rcases lt_trichotomy a.1 b.1 with h | h | h
  · exact Or.inl (Or.inl h)
  · rcases le_total a.2 b.2 with h2 | h2
    · exact Or.inl (Or.inr ⟨h, h2⟩)
    · exact Or.inr (Or.inr ⟨h.symm, h2⟩)
  · exact Or.inr (Or.inl h)

instance : IsTotal OptionPair pairR := ⟨pairR_total⟩

theorem pairR_trans : ∀ a b c : OptionPair, pairR a b → pairR b c → pairR a c := by
  rintro a b c (h1 | ⟨e1, l1⟩) (h2 | ⟨e2, l2⟩)
  · exact Or.inl (h1.trans h2)
  · exact Or.inl (e2 ▸ h1)
  · exact Or.inl (e1 ▸ h2)
  · exact Or.inr ⟨e1.trans e2, l1.trans l2⟩

instance : IsTrans OptionPair pairR := ⟨pairR_trans⟩

theorem pairR_antisymm : ∀ a b : OptionPair, pairR a b → pairR b a → a = b := by
  rintro ⟨a1, a2⟩ ⟨b1, b2⟩ (h1 | ⟨e1, l1⟩) (h2 | ⟨e2, l2⟩)
  · exact absurd h2 (lt_asymm h1)
  · exact absurd (e2 ▸ h1) (lt_irrefl _)
  · exact absurd (e1 ▸ h2) (lt_irrefl _)
  · simp only at e1 l1 l2
    subst e1
    exact congrArg (Prod.mk a1) (le_antisymm l1 l2)

instance : IsAntisymm OptionPair pairR := ⟨pairR_antisymm⟩

/-- `sorted(kw.items())`: sort the pairs lexicographically. -/
def sortPairs (l : List OptionPair) : List OptionPair :=
  List.insertionSort pairR l

/-- Per-owner-class registry dict: normalised strategy key to strategy
implementation class. -/
abbrev StrategyDict := List (StrategyKey × StrategyClsId)

/-- `StrategizedProperty._all_strategies`: `defaultdict(dict)` keyed by
owning property class. -/
abbrev Registry := List (ClassId × StrategyDict)

/-- Read a class's registry dict; a class that never registered reads as
the empty dict (the `defaultdict` view used by lookups). -/
def registryGet (reg : Registry) (c : ClassId) : StrategyDict :=
  (alookup reg c).getD []

/-- `StrategizedProperty.strategy_for(**kw)` applied to one strategy
implementation class `dec_cls`: normalise the key by sorting and store
`_all_strategies[cls][key] = dec_cls`.  (The decorator also appends the
key to `dec_cls._strategy_keys`; that per-class bookkeeping list is not
consulted by any lookup and is not modelled.) -/
def strategy_for (reg : Registry) (c : ClassId) (kw : List OptionPair)
    (dec_cls : StrategyClsId) : Registry :=
  dictInsert reg c (dictInsert (registryGet reg c) (sortPairs kw) dec_cls)

/-- `sqlalchemy.orm.exc.LoaderStrategyException` as raised by
`_strategy_lookup`: positional arguments `(applied_to_property_type,
requesting_property, applies_to, actual_strategy_type, strategy_key)`. -/
structure LoaderStrategyException where
  requesting_cls : ClassId
  requesting_property : Nat
  intended_property_type : Option ClassId
  actual_strategy : Option StrategyClsId
  key : StrategyKey
deriving DecidableEq

/-- The MRO loop of `_strategy_lookup`: walk `cls.__mro__`; for each class
that has a registry dict, try the key; first hit wins. -/
def mroLookup (reg : Registry) (key : StrategyKey) : List ClassId → Option StrategyClsId
  | [] => none
  | c :: rest =>
    match alookup reg c with
    | none => mroLookup reg key rest
    | some strategies =>
      match alookup strategies key with
      | some s => some s
      | none => mroLookup reg key rest

/-- The diagnostic fallback loop of `_strategy_lookup`: scan every
per-class registry in insertion order for the key, recording the first
owning property type and its strategy class. -/
def diagnosticScan (key : StrategyKey) : Registry → Option (ClassId × StrategyClsId)
  | [] => none
  | (c, strats) :: rest =>
    match alookup strats key with
    | some s => some (c, s)
    | none => diagnosticScan key rest

/-- `StrategizedProperty._strategy_lookup(requesting_property, *key)`.
`cls` is the class the classmethod was invoked on (the requesting
property's runtime class) and `mro` is its `__mro__`.  The touch of
`requesting_property.parent._with_polymorphic_mappers` only warms an
external memoisation and has no observable effect here. -/
def strategy_lookup (reg : Registry) (cls : ClassId) (mro : List ClassId)
    (requesting_property : Nat) (key : StrategyKey) :
    Except LoaderStrategyException StrategyClsId :=
  match mroLookup reg key mro with
  | some s => Except.ok s
  | none =>
    let diag := diagnosticScan key reg
    Except.error
      { requesting_cls := cls
        requesting_property := requesting_property
        intended_property_type := diag.map Prod.fst
        actual_strategy := diag.map Prod.snd
        key := key }

/-- The immutable configuration of one `StrategizedProperty` instance:
its object identity, runtime class and `__mro__`, owning entity
(`self.parent`, with its `non_primary` flag), attribute name `self.key`,
and the class-level default `strategy_key`. -/
structure StrategizedProperty where
  self_id : Nat
  cls : ClassId
  mro : List ClassId
  parent_id : Nat
  parent_non_primary : Bool
  key : String
  strategy_key : StrategyKey
deriving DecidableEq

/-- A constructed `LoaderStrategy` instance, with the fields assigned by
`LoaderStrategy.__init__(self, parent, strategy_key)` plus the concrete
subclass `cls` that was instantiated. -/
structure LoaderStrategy where
  cls : StrategyClsId
  parent_property : Nat
  is_class_level : Bool
  parent : Nat
  key : String
  strategy_key : StrategyKey
  strategy_opts : List OptionPair
deriving DecidableEq

/-- `LoaderStrategy.__init__`: `parent_property = parent`,
`is_class_level = False`, `parent = parent_property.parent`,
`key = parent_property.key`, `strategy_key` as given and
`strategy_opts = dict(strategy_key)`. -/
def LoaderStrategy.construct (cls : StrategyClsId) (parent : StrategizedProperty)
    (strategy_key : StrategyKey) : LoaderStrategy :=
  { cls := cls
    parent_property := parent.self_id
    is_class_level := false
    parent := parent.parent_id
    key := parent.key
    strategy_key := strategy_key
    strategy_opts := dictOfPairs strategy_key }

/-- The mutable slots of a `StrategizedProperty`: the two configure flags
from `MapperProperty.__init__`, the `_strategies` cache dict and the
default `strategy` slot (both unset before `do_init`, modelled as
`[]`/`none`). -/
structure PropState where
  configure_started : Bool
  configure_finished : Bool
  strategies : List (StrategyKey × LoaderStrategy)
  strategy : Option LoaderStrategy
deriving DecidableEq

/-- State right after `MapperProperty.__init__`: both flags `False`, the
strategy cache and default-strategy slots not yet populated. -/
def initialPropState : PropState :=
  { configure_started := false
    configure_finished := false
    strategies := []
    strategy := none }

/-- `StrategizedProperty._get_strategy(key)`: probe `self._strategies`;
on a miss run `_strategy_lookup`, construct `cls(self, key)`, store it
under the requested key and return it.  The extra `Bool` records whether
this call constructed a new instance (`true`) or served the cache
(`false`). -/
def get_strategy (reg : Registry) (p : StrategizedProperty) (st : PropState)
    (key : StrategyKey) :
    Except LoaderStrategyException (LoaderStrategy × PropState × Bool) :=
  match alookup st.strategies key with
  | some s => Except.ok (s, st, false)
  | none =>
    match strategy_lookup reg p.cls p.mro p.self_id key with
    | Except.error e => Except.error e
    | Except.ok cls =>
      let strat := LoaderStrategy.construct cls p key
      Except.ok (strat, { st with strategies := dictInsert st.strategies key strat }, true)

/-- An ambient load option held in `context.attributes`; only the
`strategy` slot (a strategy-key tuple or `None`) is consulted by this
core. -/
structure Load where
  strategy : Option StrategyKey
deriving DecidableEq

/-- The probe loop of `_get_context_loader`: for each candidate key in
order, if it is in `context.attributes` take that entry and stop. -/
def probe_loader_keys {κ : Type} [DecidableEq κ]
    (attributes : List (κ × Load)) : List κ → Option Load
  | [] => none
  | k :: rest =>
    match alookup attributes k with
    | some l => some l
    | none => probe_loader_keys attributes rest

/-- `StrategizedProperty._get_context_loader(context, path)`: probe the
context's attributes dict with the exact-path loader key, then the
wildcard key, then the default key; first hit wins, no hit yields `None`.
The derivation of the three keys from the path lives in the external
`path_registry` module, so they are taken here as inputs. -/
def get_context_loader {κ : Type} [DecidableEq κ] (attributes : List (κ × Load))
    (loader_key wildcard_path_loader_key default_path_loader_key : κ) : Option Load :=
  probe_loader_keys attributes
    [loader_key, wildcard_path_loader_key, default_path_loader_key]

/-- Errors observable from the dispatch entry points: a propagated
`LoaderStrategyException`, or the `AttributeError` Python would raise on
reading the unset `self.strategy` slot before `do_init` ran. -/
inductive DispatchError where
  | strategyExc (e : LoaderStrategyException)
  | attributeError
deriving DecidableEq

/-- Read `self.strategy` (the already-initialized default strategy). -/
def default_strategy (st : PropState) :
    Except DispatchError (LoaderStrategy × PropState) :=
  match st.strategy with
  | some s => Except.ok (s, st)
  | none => Except.error DispatchError.attributeError

/-- `StrategizedProperty.setup(context, query_entity, path, adapter)`:
resolve the context loader; if it exists and its `strategy` is truthy (a
non-empty key tuple) delegate to `_get_strategy(loader.strategy)`, else
to `self.strategy`; then call `strat.setup_query(...)`.  The result is
the strategy instance the call is delegated to, with the updated state;
the delegated `setup_query` itself only touches the external compile
state. -/
def setup {κ : Type} [DecidableEq κ] (reg : Registry) (p : StrategizedProperty)
    (st : PropState) (attributes : List (κ × Load)) (kE kW kD : κ) :
    Except DispatchError (LoaderStrategy × PropState) :=
  match get_context_loader attributes kE kW kD with
  | some loader =>
    match loader.strategy with
    | some (pair :: rest) =>
      match get_strategy reg p st (pair :: rest) with
      | Except.error e => Except.error (DispatchError.strategyExc e)
      | Except.ok (strat, st2, _) => Except.ok (strat, st2)
    | some [] => default_strategy st
    | none => default_strategy st
  | none => default_strategy st

/-- `StrategizedProperty.create_row_processor(context, query_entity, path,
mapper, result, adapter, populators)`: same resolution as `setup`, then
delegates to `strat.create_row_processor(...)` (which only appends to the
external populator buckets). -/
def create_row_processor {κ : Type} [DecidableEq κ] (reg : Registry)
    (p : StrategizedProperty) (st : PropState) (attributes : List (κ × Load))
    (kE kW kD : κ) : Except DispatchError (LoaderStrategy × PropState) :=
  match get_context_loader attributes kE kW kD with
  | some loader =>
    match loader.strategy with
    | some (pair :: rest) =>
      match get_strategy reg p st (pair :: rest) with
      | Except.error e => Except.error (DispatchError.strategyExc e)
      | Except.ok (strat, st2, _) => Except.ok (strat, st2)
    | some [] => default_strategy st
    | none => default_strategy st
  | none => default_strategy st

/-- Truthiness of a `Load.strategy` slot in `if loader and
loader.strategy`: `None` and the empty tuple are falsy. -/
def strategy_truthy : Option StrategyKey → Bool
  | none => false
  | some [] => false
  | some (_ :: _) => true

/-- `StrategizedProperty.do_init()`: `self._strategies = {}` then
`self.strategy = self._get_strategy(self.strategy_key)`. -/
def do_init (reg : Registry) (p : StrategizedProperty) (st : PropState) :
    Except LoaderStrategyException PropState :=
  let st1 := { st with strategies := ([] : List (StrategyKey × LoaderStrategy)) }
  match get_strategy reg p st1 p.strategy_key with
  | Except.error e => Except.error e
  | Except.ok (s, st2, _) => Except.ok { st2 with strategy := some s }

/-- `MapperProperty.init()`: set `_configure_started`, run `do_init()`,
set `_configure_finished`.  A raise from `do_init` propagates before the
finished flag is written. -/
def init (reg : Registry) (p : StrategizedProperty) (st : PropState) :
    Except LoaderStrategyException PropState :=
  match do_init reg p { st with configure_started := true } with
  | Except.error e => Except.error e
  | Except.ok st2 => Except.ok { st2 with configure_finished := true }

/-- The entity mapper handed to `post_instrument_class`; only
`mapper.class_manager._attr_has_impl(key)` is consulted. -/
structure Mapper where
  attr_has_impl : String → Bool

/-- `StrategizedProperty.post_instrument_class(mapper)`: when the parent
mapper is primary and the class has no attribute implementation for this
key, delegate to `self.strategy.init_class_attribute(mapper)`.  The
result records the strategy instance whose `init_class_attribute` was
invoked, or `none` when the guard suppressed the call. -/
def post_instrument_class (p : StrategizedProperty) (st : PropState) (m : Mapper) :
    Except DispatchError (Option LoaderStrategy) :=
  if !p.parent_non_primary && !(m.attr_has_impl p.key) then
    match st.strategy with
    | some s => Except.ok (some s)
    | none => Except.error DispatchError.attributeError
  else
    Except.ok none

/-- One externally drivable operation on a property's mutable state. -/
inductive PropOp (κ : Type) where
  | opInit
  | opGetStrategy (key : StrategyKey)
  | opSetup (attributes : List (κ × Load)) (kE kW kD : κ)
  | opCreateRowProcessor (attributes : List (κ × Load)) (kE kW kD : κ)
  | opPostInstrumentClass (m : Mapper)

/-- Small-step state semantics of the operations: on a Python exception
the state keeps exactly the mutations performed before the raise (for
`init`, the started flag and the cleared `_strategies` dict; the other
operations mutate nothing before raising). -/
def applyOp {κ : Type} [DecidableEq κ] (reg : Registry) (p : StrategizedProperty)
    (st : PropState) : PropOp κ → PropState
  | PropOp.opInit =>
    let st1 := { st with configure_started := true,
                         strategies := ([] : List (StrategyKey × LoaderStrategy)) }
    match get_strategy reg p st1 p.strategy_key with
    | Except.error _ => st1
    | Except.ok (s, st2, _) => { st2 with strategy := some s, configure_finished := true }
  | PropOp.opGetStrategy key =>
    match get_strategy reg p st key with
    | Except.error _ => st
    | Except.ok (_, st2, _) => st2
  | PropOp.opSetup attributes kE kW kD =>
    match setup reg p st attributes kE kW kD with
    | Except.error _ => st
    | Except.ok (_, st2) => st2
  | PropOp.opCreateRowProcessor attributes kE kW kD =>
    match create_row_processor reg p st attributes kE kW kD with
    | Except.error _ => st
    | Except.ok (_, st2) => st2
  | PropOp.opPostInstrumentClass _ => st

/-- A `LoaderOption` over an abstract compile-state type `σ` and
mapper-entity type `ε`: its behaviour, as far as this core dispatches it,
is its `process_compile_state` action. -/
structure LoaderOption (σ ε : Type) where
  process_compile_state : σ → σ

set_option linter.unusedVariables false in
/-- `LoaderOption.process_compile_state_replaced_entities(compile_state,
mapper_entities)`: the default implementation re-dispatches to
`process_compile_state`, ignoring the replaced entities. -/
def LoaderOption.process_compile_state_replaced_entities {σ ε : Type}
    (o : LoaderOption σ ε) (compile_state : σ) (mapper_entities : List ε) : σ :=
  o.process_compile_state compile_state

/-! Shared lemmas about the dict primitives and the lookup loops. -/

theorem alookup_dictInsert_self {κ α : Type} [DecidableEq κ]
    (d : List (κ × α)) (k : κ) (v : α) :
    alookup (dictInsert d k v) k = some v := by
  induction d with
  | nil => simp [dictInsert, alookup]
  | cons kv d ih =>
    obtain ⟨k0, v0⟩ := kv
    by_cases h : k = k0
    · simp [dictInsert, alookup, h]
    · simp [dictInsert, alookup, h, ih]

theorem alookup_dictInsert_ne {κ α : Type} [DecidableEq κ]
    (d : List (κ × α)) (k k' : κ) (v : α) (h : k' ≠ k) :
    alookup (dictInsert d k v) k' = alookup d k' := by
  induction d with
  | nil => simp [dictInsert, alookup, h]
  | cons kv d ih =>
    obtain ⟨k0, v0⟩ := kv
    by_cases hk : k = k0
    · subst hk
      simp [dictInsert, alookup, h]
    · by_cases hk' : k' = k0
      · simp [dictInsert, alookup, hk, hk']
      · simp [dictInsert, alookup, hk, hk', ih]

theorem alookup_dictInsert_cases {κ α : Type} [DecidableEq κ]
    (d : List (κ × α)) (k k' : κ) (v v' : α)
    (h : alookup (dictInsert d k v) k' = some v') :
    (k' = k ∧ v' = v) ∨ (k' ≠ k ∧ alookup d k' = some v') := by
  by_cases hk : k' = k
  · subst hk
    rw [alookup_dictInsert_self] at h
    exact Or.inl ⟨rfl, (Option.some.injEq _ _ ▸ h).symm⟩
  · rw [alookup_dictInsert_ne d k k' v hk] at h
    exact Or.inr ⟨hk, h⟩

theorem mroLookup_cons_miss (reg : Registry) (key : StrategyKey) (c : ClassId)
    (rest : List ClassId) (h : alookup (registryGet reg c) key = none) :
    mroLookup reg key (c :: rest) = mroLookup reg key rest := by
  cases hc : alookup reg c with
  | none => simp only [mroLookup, hc]
  | some d =>
    have h' : alookup d key = none := by
      unfold registryGet at h
      rw [hc] at h
      simpa using h
    simp only [mroLookup, hc, h']

theorem mroLookup_cons_hit (reg : Registry) (key : StrategyKey) (c : ClassId)
    (rest : List ClassId) (s : StrategyClsId)
    (h : alookup (registryGet reg c) key = some s) :
    mroLookup reg key (c :: rest) = some s := by
  cases hc : alookup reg c with
  | none =>
    unfold registryGet at h
    rw [hc] at h
    simp [alookup] at h
  | some d =>
    have h' : alookup d key = some s := by
      unfold registryGet at h
      rw [hc] at h
      simpa using h
    simp only [mroLookup, hc, h']

theorem mroLookup_eq_none (reg : Registry) (key : StrategyKey)
    (mro : List ClassId)
    (h : ∀ c ∈ mro, alookup (registryGet reg c) key = none) :
    mroLookup reg key mro = none := by
  induction mro with
  | nil => rfl
  | cons c rest ih =>
    rw [mroLookup_cons_miss reg key c rest (h c (List.mem_cons_self c rest))]
    exact ih fun c' hc' => h c' (List.mem_cons_of_mem c hc')

theorem mroLookup_append_hit (reg : Registry) (key : StrategyKey)
    (pre post : List ClassId) (c : ClassId) (s : StrategyClsId)
    (hpre : ∀ c0 ∈ pre, alookup (registryGet reg c0) key = none)
    (hc : alookup (registryGet reg c) key = some s) :
    mroLookup reg key (pre ++ c :: post) = some s := by
  induction pre with
  | nil => exact mroLookup_cons_hit reg key c post s hc
  | cons c0 pre ih =>
    rw [List.cons_append,
      mroLookup_cons_miss reg key c0 (pre ++ c :: post)
        (hpre c0 (List.mem_cons_self c0 pre))]
    exact ih fun c1 hc1 => hpre c1 (List.mem_cons_of_mem c0 hc1)

/-- Flags are untouched by `_get_strategy`. -/
theorem get_strategy_flags (reg : Registry) (p : StrategizedProperty)
    (st : PropState) (key : StrategyKey) (s : LoaderStrategy) (st' : PropState)
    (b : Bool) (h : get_strategy reg p st key = Except.ok (s, st', b)) :
    st'.configure_started = st.configure_started ∧
      st'.configure_finished = st.configure_finished ∧
      st'.strategy = st.strategy := by
  unfold get_strategy at h
  cases hc : alookup st.strategies key with
  | some s0 =>
    rw [hc] at h
    simp only [Except.ok.injEq, Prod.mk.injEq] at h
    obtain ⟨-, h2, -⟩ := h
    rw [← h2]
    exact ⟨rfl, rfl, rfl⟩
  | none =>
    rw [hc] at h
    cases hl : strategy_lookup reg p.cls p.mro p.self_id key with
    | error e => rw [hl] at h; exact absurd h (by simp)
    | ok cls =>
      rw [hl] at h
      simp only [Except.ok.injEq, Prod.mk.injEq] at h
      obtain ⟨-, h2, -⟩ := h
      rw [← h2]
      exact ⟨rfl, rfl, rfl⟩

/-! Concrete fixtures used by the witnesses. -/

/-- A registry holding column-property strategies and relationship
strategies, with keys stored in their sorted normal form. -/
def exReg : Registry :=
  [("ColumnProperty",
    [([("deferred", "false"), ("instrument", "true")], "ColumnLoader"),
     ([("deferred", "true"), ("instrument", "true")], "DeferredColumnLoader")]),
   ("RelationshipProperty",
    [([("lazy", "select")], "LazyLoader"),
     ([("lazy", "true")], "LazyLoader"),
     ([("lazy", "joined")], "JoinedLoader")])]

/-- A column-type property of class `ColumnProperty`. -/
def exProp : StrategizedProperty :=
  { self_id := 1
    cls := "ColumnProperty"
    mro := ["ColumnProperty", "StrategizedProperty", "MapperProperty"]
    parent_id := 7
    parent_non_primary := false
    key := "name"
    strategy_key := [("deferred", "false"), ("instrument", "true")] }

/-! Claim theorems. -/

/-- Claim C3: strategy-key equality is insensitive to pair insertion
order — permuted pair lists sort to the same key, and registering under
one order then looking up the key formed from the other order resolves
to the registered entry. -/
theorem strategy_key_order_insensitive (reg : Registry) (c : ClassId) (pid : Nat)
    (p1 p2 : List OptionPair) (s : StrategyClsId) (h : p1.Perm p2) :
    sortPairs p1 = sortPairs p2 ∧
      strategy_lookup (strategy_for reg c p1 s) c [c] pid (sortPairs p2) =
        Except.ok s := by
  have hsort : sortPairs p1 = sortPairs p2 :=
    List.eq_of_perm_of_sorted
      ((List.perm_insertionSort pairR p1).trans
        (h.trans (List.perm_insertionSort pairR p2).symm))
      (List.sorted_insertionSort pairR p1)
      (List.sorted_insertionSort pairR p2)
  refine ⟨hsort, ?_⟩
  have hreg : alookup (strategy_for reg c p1 s) c =
      some (dictInsert (registryGet reg c) (sortPairs p1) s) :=
    alookup_dictInsert_self reg c _
  have hdict :
      alookup (dictInsert (registryGet reg c) (sortPairs p1) s) (sortPairs p2) =
        some s := by
    rw [← hsort]
    exact alookup_dictInsert_self _ _ _
  have hmro :
      mroLookup (strategy_for reg c p1 s) (sortPairs p2) [c] = some s := by
    apply mroLookup_cons_hit
    unfold registryGet
    rw [hreg]
    simpa using hdict
  simp only [strategy_lookup, hmro]

theorem strategy_key_order_insensitive_witness :
    sortPairs [("deferred", "false"), ("instrument", "true")] =
        sortPairs [("instrument", "true"), ("deferred", "false")] ∧
      strategy_lookup
          (strategy_for [] "ColumnProperty"
            [("deferred", "false"), ("instrument", "true")] "ColumnLoader")
          "ColumnProperty" ["ColumnProperty"] 1
          (sortPairs [("instrument", "true"), ("deferred", "false")]) =
        Except.ok "ColumnLoader" :=
  strategy_key_order_insensitive [] "ColumnProperty" 1
    [("deferred", "false"), ("instrument", "true")]
    [("instrument", "true"), ("deferred", "false")] "ColumnLoader"
    (List.Perm.swap _ _ _)

/-- Claim C4: `_strategy_lookup` searches the per-class registries in MRO
order and returns the entry of the first class whose registry contains
the key; in particular a key registered against a base class is found
from a derived class that does not itself register it. -/
theorem strategy_lookup_mro_order (reg : Registry) (cls : ClassId) (pid : Nat)
    (key : StrategyKey) (pre post : List ClassId) (c : ClassId) (s : StrategyClsId)
    (hpre : ∀ c0 ∈ pre, alookup (registryGet reg c0) key = none)
    (hc : alookup (registryGet reg c) key = some s) :
    strategy_lookup reg cls (pre ++ c :: post) pid key = Except.ok s := by
  have hmro := mroLookup_append_hit reg key pre post c s hpre hc
  simp only [strategy_lookup, hmro]

theorem strategy_lookup_mro_order_witness :
    strategy_lookup exReg "MyColumnProperty"
        (["MyColumnProperty"] ++
          "ColumnProperty" :: ["StrategizedProperty", "MapperProperty"]) 2
        [("deferred", "true"), ("instrument", "true")] =
      Except.ok "DeferredColumnLoader" :=
  strategy_lookup_mro_order exReg "MyColumnProperty" 2
    [("deferred", "true"), ("instrument", "true")] ["MyColumnProperty"]
    ["StrategizedProperty", "MapperProperty"] "ColumnProperty"
    "DeferredColumnLoader" (by decide) (by decide)

/-- Claim C5: when no registry in the MRO chain contains the key,
`_strategy_lookup` always raises `LoaderStrategyException` — the
diagnostic cross-registry scan only populates the exception's fields
(requesting class, requesting property, owning property type and
wrongly-matched strategy when any, and the key) and never produces a
return value. -/
theorem strategy_lookup_miss_raises (reg : Registry) (cls : ClassId)
    (mro : List ClassId) (pid : Nat) (key : StrategyKey)
    (h : ∀ c ∈ mro, alookup (registryGet reg c) key = none) :
    strategy_lookup reg cls mro pid key =
      Except.error
        { requesting_cls := cls
          requesting_property := pid
          intended_property_type := (diagnosticScan key reg).map Prod.fst
          actual_strategy := (diagnosticScan key reg).map Prod.snd
          key := key } := by
  have hmro := mroLookup_eq_none reg key mro h
  simp only [strategy_lookup, hmro]

theorem strategy_lookup_miss_raises_witness :
    strategy_lookup exReg "RelationshipProperty"
        ["RelationshipProperty", "StrategizedProperty", "MapperProperty"] 3
        [("deferred", "true"), ("instrument", "true")] =
      Except.error
        { requesting_cls := "RelationshipProperty"
          requesting_property := 3
          intended_property_type := some "ColumnProperty"
          actual_strategy := some "DeferredColumnLoader"
          key := [("deferred", "true"), ("instrument", "true")] } := by
  rw [strategy_lookup_miss_raises exReg "RelationshipProperty"
    ["RelationshipProperty", "StrategizedProperty", "MapperProperty"] 3
    [("deferred", "true"), ("instrument", "true")] (by decide)]
  rfl

/-- Claim C1: `_get_strategy` is identity-stable memoization — whenever a
call returns instance `s` with state `st'`, calling again with the same
key returns that same cached instance with the state unchanged and
constructs nothing; and a call that missed the cache constructed the
instance and cached it under the key. -/
theorem get_strategy_memoized (reg : Registry) (p : StrategizedProperty)
    (st : PropState) (key : StrategyKey) (s : LoaderStrategy) (st' : PropState)
    (b : Bool) (h : get_strategy reg p st key = Except.ok (s, st', b)) :
    get_strategy reg p st' key = Except.ok (s, st', false) ∧
      (alookup st.strategies key = none →
        b = true ∧ alookup st'.strategies key = some s) := by
  unfold get_strategy at h
  cases hc : alookup st.strategies key with
  | some s0 =>
    rw [hc] at h
    simp only [Except.ok.injEq, Prod.mk.injEq] at h
    obtain ⟨h1, h2, h3⟩ := h
    subst h1
    subst h2
    refine ⟨?_, fun hnone => (Option.some_ne_none s0 hnone).elim⟩
    unfold get_strategy
    rw [hc]
  | none =>
    rw [hc] at h
    cases hl : strategy_lookup reg p.cls p.mro p.self_id key with
    | error e =>
      rw [hl] at h
      exact absurd h (by simp)
    | ok cls =>
      rw [hl] at h
      simp only [Except.ok.injEq, Prod.mk.injEq] at h
      obtain ⟨h1, h2, h3⟩ := h
      subst h1
      subst h3
      have hcache :
          alookup st'.strategies key = some (LoaderStrategy.construct cls p key) := by
        rw [← h2]
        exact alookup_dictInsert_self st.strategies key _
      refine ⟨?_, fun _ => ⟨rfl, hcache⟩⟩
      unfold get_strategy
      rw [hcache]

/-- Default strategy key of `exProp`, already in sorted normal form. -/
def exKey : StrategyKey := [("deferred", "false"), ("instrument", "true")]

/-- The instance `_get_strategy` constructs for `exProp` at `exKey`. -/
def exStrat : LoaderStrategy := LoaderStrategy.construct "ColumnLoader" exProp exKey

/-- State of `exProp` after that first `_get_strategy` call. -/
def exStCached : PropState := { initialPropState with strategies := [(exKey, exStrat)] }

theorem get_strategy_memoized_witness :
    get_strategy exReg exProp exStCached exKey =
        Except.ok (exStrat, exStCached, false) ∧
      (alookup initialPropState.strategies exKey = none →
        true = true ∧ alookup exStCached.strategies exKey = some exStrat) :=
  get_strategy_memoized exReg exProp initialPropState exKey exStrat exStCached
    true rfl

/-- Well-formedness of a property's `_strategies` cache: every entry
cached under key `k` is an instance built by `LoaderStrategy.__init__`
for that very key and this property. -/
def cacheWF (p : StrategizedProperty) (cache : List (StrategyKey × LoaderStrategy)) : Prop :=
  ∀ k s, alookup cache k = some s →
    s.strategy_key = k ∧ s.strategy_opts = dictOfPairs k ∧
      s.is_class_level = false ∧ s.parent = p.parent_id ∧
      s.key = p.key ∧ s.parent_property = p.self_id

/-- Fields of the instance `_get_strategy` returns, assuming a
well-formed cache. -/
theorem get_strategy_fields_aux (reg : Registry) (p : StrategizedProperty)
    (st : PropState) (key : StrategyKey) (s : LoaderStrategy) (st' : PropState)
    (b : Bool) (hwf : cacheWF p st.strategies)
    (h : get_strategy reg p st key = Except.ok (s, st', b)) :
    s.strategy_key = key ∧ s.strategy_opts = dictOfPairs key ∧
      s.is_class_level = false ∧ s.parent = p.parent_id ∧
      s.key = p.key ∧ s.parent_property = p.self_id := by
  unfold get_strategy at h
  cases hc : alookup st.strategies key with
  | some s0 =>
    rw [hc] at h
    simp only [Except.ok.injEq, Prod.mk.injEq] at h
    obtain ⟨h1, -, -⟩ := h
    exact h1 ▸ hwf key s0 hc
  | none =>
    rw [hc] at h
    cases hl : strategy_lookup reg p.cls p.mro p.self_id key with
    | error e =>
      rw [hl] at h
      exact absurd h (by simp)
    | ok cls =>
      rw [hl] at h
      simp only [Except.ok.injEq, Prod.mk.injEq] at h
      obtain ⟨h1, -, -⟩ := h
      subst h1
      exact ⟨rfl, rfl, rfl, rfl, rfl, rfl⟩

/-- Claim C10: the cache is keyed by the requested strategy key itself —
the instance returned by `_get_strategy(key)` carries `strategy_key =
key`, `strategy_opts = dict(key)`, `is_class_level = False` and the
owning property's `parent` and `key`; the resulting cache is well formed
again; and two distinct keys yield distinct instances even when they
resolve to the same strategy class. -/
theorem get_strategy_cache_keyed_by_key (reg : Registry) (p : StrategizedProperty)
    (st : PropState) (key : StrategyKey) (s : LoaderStrategy) (st' : PropState)
    (b : Bool) (hwf : cacheWF p st.strategies)
    (h : get_strategy reg p st key = Except.ok (s, st', b)) :
    (s.strategy_key = key ∧ s.strategy_opts = dictOfPairs key ∧
      s.is_class_level = false ∧ s.parent = p.parent_id ∧
      s.key = p.key ∧ s.parent_property = p.self_id) ∧
      cacheWF p st'.strategies ∧
      (∀ key2 s2 st2 b2, key2 ≠ key →
        get_strategy reg p st key2 = Except.ok (s2, st2, b2) → s ≠ s2) := by
  refine ⟨get_strategy_fields_aux reg p st key s st' b hwf h, ?_, ?_⟩
  · unfold get_strategy at h
    cases hc : alookup st.strategies key with
    | some s0 =>
      rw [hc] at h
      simp only [Except.ok.injEq, Prod.mk.injEq] at h
      obtain ⟨-, h2, -⟩ := h
      exact h2 ▸ hwf
    | none =>
      rw [hc] at h
      cases hl : strategy_lookup reg p.cls p.mro p.self_id key with
      | error e =>
        rw [hl] at h
        exact absurd h (by simp)
      | ok cls =>
        rw [hl] at h
        simp only [Except.ok.injEq, Prod.mk.injEq] at h
        obtain ⟨h1, h2, -⟩ := h
        intro k s1 hk
        rw [← h2] at hk
        simp only at hk
        rcases alookup_dictInsert_cases st.strategies key k _ s1 hk with
          ⟨hke, hse⟩ | ⟨-, hold⟩
        · subst hke
          subst hse
          exact ⟨rfl, rfl, rfl, rfl, rfl, rfl⟩
        · exact hwf k s1 hold
  · intro key2 s2 st2 b2 hne h2 hcontra
    have e1 := (get_strategy_fields_aux reg p st key s st' b hwf h).1
    have e2 := (get_strategy_fields_aux reg p st key2 s2 st2 b2 hwf h2).1
    exact hne (e2 ▸ hcontra ▸ e1 ▸ rfl)

/-- A relationship-type property of class `RelationshipProperty`. -/
def exRelProp : StrategizedProperty :=
  { self_id := 4
    cls := "RelationshipProperty"
    mro := ["RelationshipProperty", "StrategizedProperty", "MapperProperty"]
    parent_id := 8
    parent_non_primary := false
    key := "addresses"
    strategy_key := [("lazy", "select")] }

/-- Two distinct keys that both resolve to the strategy class
`LazyLoader` in `exReg`. -/
def exKeyL1 : StrategyKey := [("lazy", "select")]

def exKeyL2 : StrategyKey := [("lazy", "true")]

def exStratL1 : LoaderStrategy := LoaderStrategy.construct "LazyLoader" exRelProp exKeyL1

def exStratL2 : LoaderStrategy := LoaderStrategy.construct "LazyLoader" exRelProp exKeyL2

theorem get_strategy_cache_keyed_by_key_witness :
    (exStratL1.strategy_key = exKeyL1 ∧ exStratL1.strategy_opts = dictOfPairs exKeyL1 ∧
      exStratL1.is_class_level = false ∧ exStratL1.parent = exRelProp.parent_id ∧
      exStratL1.key = exRelProp.key ∧ exStratL1.parent_property = exRelProp.self_id) ∧
      exStratL1 ≠ exStratL2 := by
  have h := get_strategy_cache_keyed_by_key exReg exRelProp initialPropState exKeyL1
    exStratL1 { initialPropState with strategies := [(exKeyL1, exStratL1)] } true
    (fun k s hk => absurd hk (by simp [initialPropState, alookup])) rfl
  exact ⟨h.1, h.2.2 exKeyL2 exStratL2
    { initialPropState with strategies := [(exKeyL2, exStratL2)] } true
    (by decide) rfl⟩

/-- Claim C2: `_get_context_loader` probes the ambient options with the
exact-path key first, then the wildcard key, then the default key, and
the first key present wins: an entry at the exact key is returned
regardless of the other two; with no exact entry a wildcard entry is
returned regardless of the default; with neither, the default entry (or
`None`) is the result. -/
theorem context_loader_precedence {κ : Type} [DecidableEq κ]
    (attributes : List (κ × Load)) (kE kW kD : κ) :
    (∀ l, alookup attributes kE = some l →
      get_context_loader attributes kE kW kD = some l) ∧
    (alookup attributes kE = none → ∀ l, alookup attributes kW = some l →
      get_context_loader attributes kE kW kD = some l) ∧
    (alookup attributes kE = none → alookup attributes kW = none →
      get_context_loader attributes kE kW kD = alookup attributes kD) := by
  refine ⟨fun l hE => ?_, fun hE l hW => ?_, fun hE hW => ?_⟩
  · simp only [get_context_loader, probe_loader_keys, hE]
  · simp only [get_context_loader, probe_loader_keys, hE, hW]
  · simp only [get_context_loader, probe_loader_keys, hE, hW]
    cases alookup attributes kD <;> rfl

/-- An ambient-options mapping holding a loader entry at the exact-path
key `"pk"` that selects the `lazy=True` strategy. -/
def exAttrs : List (String × Load) := [("pk", Load.mk (some exKeyL2))]

theorem context_loader_precedence_witness :
    get_context_loader exAttrs "pk" "wk" "dk" = some (Load.mk (some exKeyL2)) :=
  (context_loader_precedence exAttrs "pk" "wk" "dk").1 (Load.mk (some exKeyL2)) rfl

/-- Claim C7: `setup` and `create_row_processor` delegate to the default
strategy instance `self.strategy` when the ambient probe yields no load
option or one whose `strategy` slot is falsy, and otherwise delegate to
the instance `_get_strategy` resolves from the option's strategy key
(propagating its exception on a failed lookup). -/
theorem dispatch_delegation {κ : Type} [DecidableEq κ] (reg : Registry)
    (p : StrategizedProperty) (st : PropState) (attributes : List (κ × Load))
    (kE kW kD : κ) (ds : LoaderStrategy) (hds : st.strategy = some ds) :
    ((get_context_loader attributes kE kW kD = none ∨
      ∃ l, get_context_loader attributes kE kW kD = some l ∧
        strategy_truthy l.strategy = false) →
      setup reg p st attributes kE kW kD = Except.ok (ds, st) ∧
        create_row_processor reg p st attributes kE kW kD = Except.ok (ds, st)) ∧
    (∀ l sk, get_context_loader attributes kE kW kD = some l →
      l.strategy = some sk → strategy_truthy l.strategy = true →
      (∀ s st2 b, get_strategy reg p st sk = Except.ok (s, st2, b) →
        setup reg p st attributes kE kW kD = Except.ok (s, st2) ∧
          create_row_processor reg p st attributes kE kW kD = Except.ok (s, st2)) ∧
      (∀ e, get_strategy reg p st sk = Except.error e →
        setup reg p st attributes kE kW kD =
            Except.error (DispatchError.strategyExc e) ∧
          create_row_processor reg p st attributes kE kW kD =
            Except.error (DispatchError.strategyExc e))) := by
  constructor
  · rintro (hnone | ⟨l, hl, hfalsy⟩)
    · simp only [setup, create_row_processor, hnone, default_strategy, hds]
      exact ⟨trivial, trivial⟩
    · cases hstrat : l.strategy with
      | none =>
        simp only [setup, create_row_processor, hl, hstrat, default_strategy, hds]
        exact ⟨trivial, trivial⟩
      | some sk =>
        cases sk with
        | nil =>
          simp only [setup, create_row_processor, hl, hstrat, default_strategy, hds]
          exact ⟨trivial, trivial⟩
        | cons pair rest =>
          rw [hstrat] at hfalsy
          exact absurd hfalsy (by simp [strategy_truthy])
  · intro l sk hl hstrat htruthy
    cases sk with
    | nil =>
      rw [hstrat] at htruthy
      exact absurd htruthy (by simp [strategy_truthy])
    | cons pair rest =>
      constructor
      · intro s st2 b hg
        simp only [setup, create_row_processor, hl, hstrat, hg]
        exact ⟨trivial, trivial⟩
      · intro e hg
        simp only [setup, create_row_processor, hl, hstrat, hg]
        exact ⟨trivial, trivial⟩

/-- A relationship property state as left by `init()`: default strategy
resolved and cached. -/
def exStInitRel : PropState :=
  { configure_started := true
    configure_finished := true
    strategies := [(exKeyL1, exStratL1)]
    strategy := some exStratL1 }

/-- The state after `setup` additionally resolves the `lazy=True`
strategy for the exact-path option. -/
def exStInitRel2 : PropState :=
  { exStInitRel with strategies := [(exKeyL1, exStratL1), (exKeyL2, exStratL2)] }

theorem dispatch_delegation_witness :
    setup exReg exRelProp exStInitRel exAttrs "pk" "wk" "dk" =
        Except.ok (exStratL2, exStInitRel2) ∧
      create_row_processor exReg exRelProp exStInitRel exAttrs "pk" "wk" "dk" =
        Except.ok (exStratL2, exStInitRel2) :=
  ((dispatch_delegation exReg exRelProp exStInitRel exAttrs "pk" "wk" "dk"
        exStratL1 rfl).2
      (Load.mk (some exKeyL2)) exKeyL2 rfl rfl rfl).1
    exStratL2 exStInitRel2 true rfl

/-- Claim C8: `post_instrument_class(mapper)` calls the default
strategy's `init_class_attribute(mapper)` iff the parent mapper is not
non-primary and the mapped class has no attribute implementation for the
property's key; when either condition fails, no class-attribute
initialization occurs. -/
theorem post_instrument_class_guard (p : StrategizedProperty) (st : PropState)
    (m : Mapper) (ds : LoaderStrategy) (hds : st.strategy = some ds) :
    (post_instrument_class p st m = Except.ok (some ds) ↔
      p.parent_non_primary = false ∧ m.attr_has_impl p.key = false) ∧
    (p.parent_non_primary = true ∨ m.attr_has_impl p.key = true →
      post_instrument_class p st m = Except.ok none) := by
  unfold post_instrument_class
  rw [hds]
  constructor
  · constructor
    · intro h
      by_cases h1 : p.parent_non_primary <;>
        by_cases h2 : m.attr_has_impl p.key <;> simp_all
    · rintro ⟨h1, h2⟩
      simp [h1, h2]
  · rintro (h | h) <;> simp [h]

/-- A mapped class with no attribute implementations yet. -/
def exMapper : Mapper := { attr_has_impl := fun _ => false }

/-- State of `exProp` after `init()`. -/
def exStColumn : PropState :=
  { configure_started := true
    configure_finished := true
    strategies := [(exKey, exStrat)]
    strategy := some exStrat }

theorem post_instrument_class_guard_witness :
    post_instrument_class exProp exStColumn exMapper = Except.ok (some exStrat) :=
  ((post_instrument_class_guard exProp exStColumn exMapper exStrat rfl).1).mpr
    ⟨rfl, rfl⟩

/-- Claim C9: the default `LoaderOption.process_compile_state_replaced_entities`
has exactly the effect of `process_compile_state` on the compile state,
ignoring the replaced-entities argument. -/
theorem replaced_entities_redispatch {σ ε : Type} (o : LoaderOption σ ε)
    (compile_state : σ) (mapper_entities mapper_entities' : List ε) :
    o.process_compile_state_replaced_entities compile_state mapper_entities =
        o.process_compile_state compile_state ∧
      o.process_compile_state_replaced_entities compile_state mapper_entities =
        o.process_compile_state_replaced_entities compile_state mapper_entities' :=
  ⟨rfl, rfl⟩

/-- Reading `self.strategy` leaves the state unchanged. -/
theorem default_strategy_state (st : PropState) (s : LoaderStrategy) (st' : PropState)
    (h : default_strategy st = Except.ok (s, st')) : st' = st := by
  unfold default_strategy at h
  cases hs : st.strategy with
  | none =>
    rw [hs] at h
    exact absurd h (by simp)
  | some s0 =>
    rw [hs] at h
    simp only [Except.ok.injEq, Prod.mk.injEq] at h
    exact h.2.symm

/-- `setup` does not touch the configure flags. -/
theorem setup_flags {κ : Type} [DecidableEq κ] (reg : Registry)
    (p : StrategizedProperty) (st : PropState) (attributes : List (κ × Load))
    (kE kW kD : κ) (s : LoaderStrategy) (st' : PropState)
    (h : setup reg p st attributes kE kW kD = Except.ok (s, st')) :
    st'.configure_started = st.configure_started ∧
      st'.configure_finished = st.configure_finished := by
  unfold setup at h
  cases hl : get_context_loader attributes kE kW kD with
  | none =>
    simp only [hl] at h
    rw [default_strategy_state st s st' h]
    exact ⟨rfl, rfl⟩
  | some l =>
    cases hstrat : l.strategy with
    | none =>
      simp only [hl, hstrat] at h
      rw [default_strategy_state st s st' h]
      exact ⟨rfl, rfl⟩
    | some sk =>
      cases sk with
      | nil =>
        simp only [hl, hstrat] at h
        rw [default_strategy_state st s st' h]
        exact ⟨rfl, rfl⟩
      | cons pair rest =>
        simp only [hl, hstrat] at h
        cases hg : get_strategy reg p st (pair :: rest) with
        | error e => simp [hg] at h
        | ok r =>
          obtain ⟨s2, st2, b⟩ := r
          simp only [hg] at h
          simp only [Except.ok.injEq, Prod.mk.injEq] at h
          obtain ⟨-, h2⟩ := h
          subst h2
          have hfl := get_strategy_flags reg p st (pair :: rest) s2 st2 b hg
          exact ⟨hfl.1, hfl.2.1⟩

/-- `create_row_processor` does not touch the configure flags. -/
theorem create_row_processor_flags {κ : Type} [DecidableEq κ] (reg : Registry)
    (p : StrategizedProperty) (st : PropState) (attributes : List (κ × Load))
    (kE kW kD : κ) (s : LoaderStrategy) (st' : PropState)
    (h : create_row_processor reg p st attributes kE kW kD = Except.ok (s, st')) :
    st'.configure_started = st.configure_started ∧
      st'.configure_finished = st.configure_finished := by
  unfold create_row_processor at h
  cases hl : get_context_loader attributes kE kW kD with
  | none =>
    simp only [hl] at h
    rw [default_strategy_state st s st' h]
    exact ⟨rfl, rfl⟩
  | some l =>
    cases hstrat : l.strategy with
    | none =>
      simp only [hl, hstrat] at h
      rw [default_strategy_state st s st' h]
      exact ⟨rfl, rfl⟩
    | some sk =>
      cases sk with
      | nil =>
        simp only [hl, hstrat] at h
        rw [default_strategy_state st s st' h]
        exact ⟨rfl, rfl⟩
      | cons pair rest =>
        simp only [hl, hstrat] at h
        cases hg : get_strategy reg p st (pair :: rest) with
        | error e => simp [hg] at h
        | ok r =>
          obtain ⟨s2, st2, b⟩ := r
          simp only [hg] at h
          simp only [Except.ok.injEq, Prod.mk.injEq] at h
          obtain ⟨-, h2⟩ := h
          subst h2
          have hfl := get_strategy_flags reg p st (pair :: rest) s2 st2 b hg
          exact ⟨hfl.1, hfl.2.1⟩

/-- Each operation keeps a configure flag that is already `true`. -/
theorem applyOp_flags_mono {κ : Type} [DecidableEq κ] (reg : Registry)
    (p : StrategizedProperty) (st : PropState) (op : PropOp κ) :
    (st.configure_started = true →
      (applyOp reg p st op).configure_started = true) ∧
    (st.configure_finished = true →
      (applyOp reg p st op).configure_finished = true) := by
  cases op with
  | opInit =>
    simp only [applyOp]
    cases hg : get_strategy reg p
        { st with configure_started := true, strategies := [] } p.strategy_key with
    | error e => exact ⟨fun _ => rfl, fun hf => hf⟩
    | ok r =>
      obtain ⟨s, st2, b⟩ := r
      have hfl := get_strategy_flags reg p _ p.strategy_key s st2 b hg
      exact ⟨fun _ => hfl.1, fun _ => rfl⟩
  | opGetStrategy key =>
    simp only [applyOp]
    cases hg : get_strategy reg p st key with
    | error e => exact ⟨id, id⟩
    | ok r =>
      obtain ⟨s, st2, b⟩ := r
      have hfl := get_strategy_flags reg p st key s st2 b hg
      exact ⟨fun hs => hfl.1.trans hs, fun hf => hfl.2.1.trans hf⟩
  | opSetup attributes kE kW kD =>
    simp only [applyOp]
    cases hs : setup reg p st attributes kE kW kD with
    | error e => exact ⟨id, id⟩
    | ok r =>
      obtain ⟨s, st2⟩ := r
      have hfl := setup_flags reg p st attributes kE kW kD s st2 hs
      exact ⟨fun h => hfl.1.trans h, fun h => hfl.2.trans h⟩
  | opCreateRowProcessor attributes kE kW kD =>
    simp only [applyOp]
    cases hs : create_row_processor reg p st attributes kE kW kD with
    | error e => exact ⟨id, id⟩
    | ok r =>
      obtain ⟨s, st2⟩ := r
      have hfl := create_row_processor_flags reg p st attributes kE kW kD s st2 hs
      exact ⟨fun h => hfl.1.trans h, fun h => hfl.2.trans h⟩
  | opPostInstrumentClass m => exact ⟨id, id⟩

/-- Flag monotonicity extends to arbitrary operation sequences. -/
theorem foldl_applyOp_flags_mono {κ : Type} [DecidableEq κ] (reg : Registry)
    (p : StrategizedProperty) (ops : List (PropOp κ)) (st : PropState) :
    (st.configure_started = true →
      (ops.foldl (applyOp reg p) st).configure_started = true) ∧
    (st.configure_finished = true →
      (ops.foldl (applyOp reg p) st).configure_finished = true) := by
  induction ops generalizing st with
  | nil => exact ⟨id, id⟩
  | cons op rest ih =>
    simp only [List.foldl_cons]
    exact ⟨fun hs => (ih _).1 ((applyOp_flags_mono reg p st op).1 hs),
      fun hf => (ih _).2 ((applyOp_flags_mono reg p st op).2 hf)⟩

/-- Running `init()` a second time is a no-op on the property state. -/
theorem applyOp_opInit_idem {κ : Type} [DecidableEq κ] (reg : Registry)
    (p : StrategizedProperty) (st : PropState) :
    applyOp (κ := κ) reg p (applyOp (κ := κ) reg p st PropOp.opInit) PropOp.opInit =
      applyOp (κ := κ) reg p st PropOp.opInit := by
  simp only [applyOp]
  cases hl : strategy_lookup reg p.cls p.mro p.self_id p.strategy_key with
  | error e => simp [get_strategy, alookup, hl]
  | ok cls => simp [get_strategy, alookup, hl, dictInsert]

/-- `do_init` leaves the configure flags as it found them. -/
theorem do_init_flags (reg : Registry) (p : StrategizedProperty) (st st1 : PropState)
    (h : do_init reg p st = Except.ok st1) :
    st1.configure_started = st.configure_started ∧
      st1.configure_finished = st.configure_finished := by
  simp only [do_init] at h
  cases hg : get_strategy reg p { st with strategies := [] } p.strategy_key with
  | error e =>
    rw [hg] at h
    exact absurd h (by simp)
  | ok r =>
    obtain ⟨s, st2, b⟩ := r
    rw [hg] at h
    simp only [Except.ok.injEq] at h
    subst h
    have hfl := get_strategy_flags reg p _ p.strategy_key s st2 b hg
    exact ⟨hfl.1, hfl.2.1⟩

/-- A successful `init()` ends with both configure flags set. -/
theorem init_ok_flags (reg : Registry) (p : StrategizedProperty) (st st2 : PropState)
    (h : init reg p st = Except.ok st2) :
    st2.configure_started = true ∧ st2.configure_finished = true := by
  unfold init at h
  cases hd : do_init reg p { st with configure_started := true } with
  | error e =>
    rw [hd] at h
    exact absurd h (by simp)
  | ok st1 =>
    rw [hd] at h
    simp only [Except.ok.injEq] at h
    subst h
    exact ⟨(do_init_flags reg p _ st1 hd).1, rfl⟩

/-- Claim C6: starting from both flags false after construction, a
successful `init()` ends with `_configure_started` and
`_configure_finished` true; a second `init()` is a no-op on the state;
and neither flag ever regresses from true to false under any sequence of
operations. -/
theorem configure_flags_monotonic {κ : Type} [DecidableEq κ] (reg : Registry)
    (p : StrategizedProperty) :
    (initialPropState.configure_started = false ∧
      initialPropState.configure_finished = false) ∧
    (∀ st st2, init reg p st = Except.ok st2 →
      st2.configure_started = true ∧ st2.configure_finished = true) ∧
    (∀ st : PropState,
      applyOp (κ := κ) reg p (applyOp (κ := κ) reg p st PropOp.opInit) PropOp.opInit =
        applyOp (κ := κ) reg p st PropOp.opInit) ∧
    (∀ (ops : List (PropOp κ)) (st : PropState),
      (st.configure_started = true →
        (ops.foldl (applyOp reg p) st).configure_started = true) ∧
      (st.configure_finished = true →
        (ops.foldl (applyOp reg p) st).configure_finished = true)) :=
  ⟨⟨rfl, rfl⟩, fun st st2 h => init_ok_flags reg p st st2 h,
    fun st => applyOp_opInit_idem reg p st,
    fun ops st => foldl_applyOp_flags_mono reg p ops st⟩

/-- A state whose flags are already set, with nothing else populated. -/
def exStStarted : PropState :=
  { configure_started := true
    configure_finished := true
    strategies := []
    strategy := none }

theorem configure_flags_monotonic_witness :
    (exStColumn.configure_started = true ∧ exStColumn.configure_finished = true) ∧
      (applyOp (κ := String) exReg exProp
          (applyOp (κ := String) exReg exProp initialPropState PropOp.opInit)
          PropOp.opInit =
        applyOp (κ := String) exReg exProp initialPropState PropOp.opInit) ∧
      (([PropOp.opInit, PropOp.opGetStrategy exKey] : List (PropOp String)).foldl
          (applyOp exReg exProp) exStStarted).configure_started = true :=
  ⟨(configure_flags_monotonic (κ := String) exReg exProp).2.1 initialPropState
      exStColumn rfl,
    (configure_flags_monotonic (κ := String) exReg exProp).2.2.1 initialPropState,
    ((configure_flags_monotonic (κ := String) exReg exProp).2.2.2
        [PropOp.opInit, PropOp.opGetStrategy exKey] exStStarted).1 rfl⟩

end OrmInterfaces
